import Mathlib

/-!
Verification development for the thames-water-importer repository.

The program is a Go pipeline (`app` package, `main.go`) that logs into a
utility web account through a driven browser, extracts a filtered cookie
set, discovers a meter and the available reporting days, imports hourly
consumption samples into a local Prometheus TSDB with deduplication
against the store floor, and ships finalized blocks to a remote object
store.

The definitions below are a shallow embedding of the functions of
`src/main.go` (packages `app` and `api`).  Timestamps are modelled as
`Int` milliseconds since the Unix epoch, exactly the unit the program
uses when appending samples (`timestamp.FromTime`).  Calendar dates are
converted to day numbers with the standard civil-from-days algorithm,
which agrees with Go's proleptic Gregorian `time` package on all dates.
-/

namespace ThamesWater

/-! Part: Calendar arithmetic

Models Go's `time` package on UTC midnight instants: `time.Parse`
produces a `time.Time`, `time.Date` normalizes out-of-range fields by
exact date arithmetic, and `timestamp.FromTime` converts to Unix
milliseconds. -/

/-- A calendar date as held by a Go `time.Time` at UTC midnight. -/
structure Date where
  year : Int
  month : Int
  day : Int
deriving DecidableEq, Repr

/-- Gregorian leap-year rule, as used by Go's `time.isLeap`. -/
def isLeapYear (y : Int) : Bool :=
  y % 4 == 0 && (y % 100 != 0 || y % 400 == 0)

/-- Days in a month of a given year, as used by Go's `time.daysIn`. -/
def daysInMonth (y m : Int) : Int :=
  if m == 2 then (if isLeapYear y then 29 else 28)
  else if m == 4 || m == 6 || m == 9 || m == 11 then 30
  else 31

/-- Number of days from the Unix epoch (1970-01-01) to the civil date
`y-m-d` (negative for earlier dates); the standard civil-calendar
conversion, agreeing with Go's `time` package absolute-day arithmetic. -/
def daysFromCivil (y m d : Int) : Int :=
  let y' := if m ≤ 2 then y - 1 else y
  let era := Int.fdiv y' 400
  let yoe := y' - era * 400
  let doy := Int.fdiv (153 * (m + (if m > 2 then -3 else 9)) + 2) 5 + d - 1
  let doe := yoe * 365 + Int.fdiv yoe 4 - Int.fdiv yoe 100 + doy
  era * 146097 + doe - 719468

/-- Unix-millisecond timestamp of UTC midnight of a date; the value
`timestamp.FromTime` yields for the parsed `StartDate` of a day. -/
def dayStartMs (dt : Date) : Int :=
  86400000 * daysFromCivil dt.year dt.month dt.day

/-- The Go zero `time.Time` (0001-01-01T00:00:00Z) in Unix milliseconds.
This is the value the `minTime` variable of
`importConsumptionIntoLocalTSDB` holds when
`db.Head().AppendableMinValidTime()` reports the store as uninitialized
(`var minTime time.Time` keeps its zero value). -/
def goZeroTimeMs : Int := dayStartMs ⟨1, 1, 1⟩

/-! Part: Numeric and date parsing -/

/-- Models Go `strings.Split(s, sep)` for a one-character separator, on
the character list of the string: the (always nonempty) list of
separator-free groups. -/
def goSplit (sep : Char) : List Char → List (List Char)
  | [] => [[]]
  | c :: rest =>
    match goSplit sep rest with
    | [] => [[c]]
    | g :: gs => if c == sep then [] :: g :: gs else (c :: g) :: gs

/-- Reads a nonempty all-decimal-digit character list as a `Nat`;
`none` on an empty list or any non-digit. -/
def decDigits : List Char → Option Nat
  | [] => none
  | cs =>
    cs.foldl
      (fun acc c =>
        acc.bind fun n => if c.isDigit then some (n * 10 + (c.toNat - 48)) else none)
      (some 0)

/-- Models Go `strconv.ParseInt(s, 10, 32)` as used on the parts of a
time label: an optional sign followed by decimal digits, rejected when
empty, malformed, or out of signed 32-bit range. -/
def goParseInt32Chars (cs : List Char) : Option Int :=
  let (neg, digits) :=
    match cs with
    | '-' :: rest => (true, rest)
    | '+' :: rest => (false, rest)
    | rest => (false, rest)
  match decDigits digits with
  | none => none
  | some n =>
    let v : Int := if neg then -(n : Int) else (n : Int)
    if -2147483648 ≤ v ∧ v ≤ 2147483647 then some v else none

/-- Models `strconv.ParseInt(s, 10, 32)` on a string. -/
def goParseInt32 (s : String) : Option Int :=
  goParseInt32Chars s.toList

/-- Models Go `time.Parse("02-01-2006", s)` on a day-marker string:
two-digit day, two-digit month, four-digit year separated by dashes,
with the month and day validated against the Gregorian calendar
(Go rejects "month out of range" and "day out of range"). -/
def parseDayMarker (s : String) : Option Date :=
  match goSplit '-' s.toList with
  | [ds, ms, ys] =>
    if ds.length = 2 ∧ ms.length = 2 ∧ ys.length = 4 then
      match decDigits ds, decDigits ms, decDigits ys with
      | some d, some m, some y =>
        if 1 ≤ m ∧ m ≤ 12 ∧ 1 ≤ d ∧ (d : Int) ≤ daysInMonth (y : Int) (m : Int) then
          some ⟨(y : Int), (m : Int), (d : Int)⟩
        else none
      | _, _, _ => none
    else none
  | _ => none

/-- Models the per-line time-label parsing of
`importConsumptionIntoLocalTSDB`: split the label on ":", require
exactly two parts, and parse each with `strconv.ParseInt(_, 10, 32)`. -/
def parseTimeLabel (label : String) : Except String (Int × Int) :=
  match goSplit ':' label.toList with
  | [hs, ms] =>
    match goParseInt32Chars hs with
    | none => .error ("parsing hours: " ++ String.mk hs)
    | some h =>
      match goParseInt32Chars ms with
      | none => .error ("parsing minutes: " ++ String.mk ms)
      | some m => .ok (h, m)
  | parts => .error ("unexpected label split count: " ++ toString parts.length)

/-- Sample timestamp built by
`time.Date(Y, M, D, hours, minutes, 0, 0, time.UTC)` followed by
`timestamp.FromTime`: Go's `time.Date` normalizes out-of-range hour and
minute fields by exact date arithmetic, so the instant is midnight of
the day plus the given hours and minutes. -/
def sampleTime (dayStart hours minutes : Int) : Int :=
  dayStart + 3600000 * hours + 60000 * minutes

/-! Part: Readings client data (package `api`) -/

/-- Models `api.Reading`: one key/value pair of the meter-discovery response. -/
structure Reading where
  key : String
  value : String
deriving DecidableEq, Repr

/-- The parts of `api.GetMetersResponse` consumed by the pipeline:
the meter list and the `Daily` day markers. -/
structure GetMetersResponse where
  meters : List String
  daily : List Reading
deriving DecidableEq, Repr

/-- Models `api.GetSmartWaterMeterConsumptionsRequest` with the timestamps
in Unix milliseconds. -/
structure ConsumptionRequest where
  meter : String
  startDate : Int
  endDate : Int
deriving DecidableEq, Repr

/-- Models `api.SmartWaterMeterReading`: one hourly detail line.  The float
readings of the wire format are carried as rationals; the pipeline never
computes with them, it only copies them into samples. -/
structure MeterLine where
  label : String
  usage : Rat
  read : Rat
  isEstimated : Bool
  meterSerialNumberHis : String
deriving DecidableEq, Repr

/-! Part: Import pipeline (`importConsumptionIntoLocalTSDB`) -/

/-- One appended sample: the per-line meter serial (set as the "meter"
label), the millisecond timestamp, and the cumulative read value. -/
structure Sample where
  meterSerial : String
  time : Int
  read : Rat
deriving DecidableEq, Repr

/-- The request built for one parsed day marker: the single discovered
meter with `StartDate = EndDate =` the day's midnight. -/
def requestOfDate (meter : String) (dt : Date) : ConsumptionRequest :=
  ⟨meter, dayStartMs dt, dayStartMs dt⟩

/-- The request-construction loop: parse each `Daily` value with
`time.Parse("02-01-2006", _)`, aborting the run on the first parse
error, and pair it with the discovered meter. -/
def buildRequests (meter : String) : List Reading → Except String (List ConsumptionRequest)
  | [] => .ok []
  | r :: rest =>
    match parseDayMarker r.value with
    | none => .error ("parsing time " ++ r.value)
    | some dt =>
      match buildRequests meter rest with
      | .error e => .error e
      | .ok reqs => .ok (requestOfDate meter dt :: reqs)

/-- Models `sort.Slice(readingRequests, ...)` ordering requests by
`StartDate.Before`: the list sorted non-decreasingly by start date. -/
def sortRequests (reqs : List ConsumptionRequest) : List ConsumptionRequest :=
  List.insertionSort (fun a b => a.startDate ≤ b.startDate) reqs

/-- The dedup test of the day loop: a day is skipped when
`!minTime.Before(reqData.StartDate)`, i.e. when its start is not
strictly after the store floor. -/
def skipDay (minTime : Int) (req : ConsumptionRequest) : Bool :=
  !(minTime < req.startDate)

/-- The effective store floor used by the day loop: the value of
`AppendableMinValidTime()` when the store is initialized, and the Go
zero time otherwise (the `minTime` variable keeps its zero value). -/
def effectiveMinTime (floor : Option Int) : Int :=
  floor.getD goZeroTimeMs

/-- The per-day sample construction loop: parse each line's label,
aborting on the first parse error, and build one sample per line at the
day's date combined with the line's hour and minute. -/
def buildDaySamples (dayStart : Int) : List MeterLine → Except String (List Sample)
  | [] => .ok []
  | l :: rest =>
    match parseTimeLabel l.label with
    | .error e => .error e
    | .ok (h, m) =>
      match buildDaySamples dayStart rest with
      | .error e => .error e
      | .ok samples => .ok (⟨l.meterSerialNumberHis, sampleTime dayStart h m, l.read⟩ :: samples)

/-- Observable outcome of the day loop: the per-day committed sample
batches in order, the day starts fetched (the "daily reading" log
events), the day starts skipped (the "skipped daily reading" log
events), and the error that aborted the run, if any. -/
structure RunOutcome where
  committed : List (List Sample)
  processed : List Int
  skipped : List Int
  error : Option String
deriving DecidableEq, Repr

/-- The day loop of `importConsumptionIntoLocalTSDB` over the sorted
requests: skip a day when `!minTime.Before(StartDate)`; otherwise fetch
its detail lines (`fetch` stands for
`twClient.GetSmartWaterMeterConsumptions`), build the day's samples,
and commit them as one batch.  A fetch or parse error aborts the run
before the current day's commit; the storage appender itself is
modelled as accepting every sample. -/
def importLoop (minTime : Int) (fetch : ConsumptionRequest → Except String (List MeterLine)) :
    List ConsumptionRequest → RunOutcome
  | [] => ⟨[], [], [], none⟩
  | req :: rest =>
    if minTime < req.startDate then
      match fetch req with
      | .error e => ⟨[], [req.startDate], [], some e⟩
      | .ok lines =>
        match buildDaySamples req.startDate lines with
        | .error e => ⟨[], [req.startDate], [], some e⟩
        | .ok samples =>
          let r := importLoop minTime fetch rest
          ⟨samples :: r.committed, req.startDate :: r.processed, r.skipped, r.error⟩
    else
      let r := importLoop minTime fetch rest
      ⟨r.committed, r.processed, req.startDate :: r.skipped, r.error⟩

/-- The import run from the point the meter-discovery response is in
hand: fail with "no meters found" on an empty meter list, build one
request per day marker using the first discovered meter, sort them
ascending, and run the day loop against the effective store floor. -/
def runImport (floor : Option Int) (resp : GetMetersResponse)
    (fetch : ConsumptionRequest → Except String (List MeterLine)) : RunOutcome :=
  match resp.meters with
  | [] => ⟨[], [], [], some "no meters found"⟩
  | meter :: _ =>
    match buildRequests meter resp.daily with
    | .error e => ⟨[], [], [], some e⟩
    | .ok reqs => importLoop (effectiveMinTime floor) fetch (sortRequests reqs)

/-- A fetch stub whose every day succeeds with no detail lines; used to
observe the dedup decisions of the loop in isolation. -/
def okFetch : ConsumptionRequest → Except String (List MeterLine) :=
  fun _ => .ok []

/-! Part: Cookie extraction (`getLoginCookies`) -/

/-- Models the browser protocol's cookie same-site attribute
(`network.CookieSameSite`). -/
inductive CdpSameSite where
  | strict
  | lax
  | noneMode
  | unspecified
deriving DecidableEq, Repr

/-- Models `net/http.SameSite`. -/
inductive HttpSameSite where
  | defaultMode
  | laxMode
  | strictMode
  | noneMode
deriving DecidableEq, Repr

/-- A cookie as returned by `network.GetAllCookies` from the browser
context, with the fields `getLoginCookies` reads.  The expiry is in
seconds since the Unix epoch (negative for a session cookie). -/
structure CdpCookie where
  name : String
  value : String
  path : String
  domain : String
  expires : Int
  secure : Bool
  sameSite : CdpSameSite
deriving DecidableEq, Repr

/-- The `net/http.Cookie` built for a retained browser cookie. -/
structure HttpCookie where
  name : String
  value : String
  path : String
  domain : String
  expires : Int
  secure : Bool
  sameSite : HttpSameSite
deriving DecidableEq, Repr

/-- The Go zero `time.Time` in Unix seconds, the `Expires` value stored
when the browser reports a negative expiry. -/
def goZeroTimeSec : Int := 86400 * daysFromCivil 1 1 1

/-- The retention test of `getLoginCookies`:
`strings.HasSuffix(cookie.Domain, ".thameswater.co.uk")` together with
the inline name allow-list. -/
def keepCookie (c : CdpCookie) : Bool :=
  ".thameswater.co.uk".toList.isSuffixOf c.domain.toList &&
    (c.name == "JSESSIONID" || c.name == "da_sid" || c.name == "da_lid" ||
      c.name == "ARRAffinity" || c.name == "ARRAffinitySameSite")

/-- The fixed allow-list of cookie names, written out as a set for the
statement of the retention property. -/
def allowedCookieNames : List String :=
  ["JSESSIONID", "da_sid", "da_lid", "ARRAffinity", "ARRAffinitySameSite"]

/-- The `http.Cookie` construction of `getLoginCookies` for one retained
browser cookie: fields copied, a negative expiry becomes the zero time,
and the same-site attribute is mapped by the inline switch. -/
def convertCookie (c : CdpCookie) : HttpCookie :=
  { name := c.name
    value := c.value
    path := c.path
    domain := c.domain
    expires := if c.expires < 0 then goZeroTimeSec else c.expires
    secure := c.secure
    sameSite :=
      match c.sameSite with
      | .lax => .laxMode
      | .strict => .strictMode
      | .noneMode => .noneMode
      | .unspecified => .defaultMode }

/-- The cookie-extraction loop of `getLoginCookies`: appends the
converted cookie for each browser cookie passing the retention test. -/
def filterLoginCookies (cookies : List CdpCookie) : List HttpCookie :=
  cookies.foldl (fun acc c => if keepCookie c then acc ++ [convertCookie c] else acc) []

/-! Part: Remote shipper (`uploadLocalTSDB`) -/

/-- Observable actions of `uploadLocalTSDB`: creating the object-store
bucket client, calling the shipper's `Sync`, closing the bucket client
(the deferred `runutil.CloseWithLogOnErr`), and logging the upload
count. -/
inductive ShipperEvent where
  | bucketCreated
  | syncCalled
  | closedBucket
  | loggedUpload (n : Nat)
deriving DecidableEq, Repr

/-- Models `uploadLocalTSDB` as a trace: given the outcome of
`client.NewBucket` and of `shipper.Sync`, the list of actions performed
in order and the returned error.  The deferred cleanup closure runs at
every return but closes the bucket only when the function-scoped `err`
is non-nil at that moment. -/
def uploadLocalTSDB (newBucket : Except String Unit) (syncResult : Except String Nat) :
    List ShipperEvent × Option String :=
  match newBucket with
  | .error e => ([], some e)
  | .ok _ =>
    match syncResult with
    | .error e => ([.bucketCreated, .syncCalled, .closedBucket], some e)
    | .ok n => ([.bucketCreated, .syncCalled, .loggedUpload n], none)

/-! Part: Session bootstrap retry loop

The importer wraps `getLoginCookies` in `retry.Do` of the external
library avast/retry-go v4, passing only `retry.Context(ctx)` and an
`OnRetry` observer.  Every other knob keeps the library's documented
default; in particular the attempt budget stays at the default of 10
(`retry.Attempts` is never applied, and only `retry.Attempts(0)` would
make the loop unbounded), errors of all attempts are collected
(`LastErrorOnly` stays false), and every plain error is retryable.  The
model below embeds that loop: `run n` is the outcome of attempt `n`
(each attempt independent, under its own fresh timeout context), and
`ctxDone n` tells whether the outer context is done during the backoff
wait after failed attempt `n`. -/

/-- Result of the retry loop: the first success, or the collected
per-attempt errors (with a trailing cancellation error when the outer
context fired during a wait), together with the number of attempts that
were actually executed. -/
structure RetryTrace (α : Type) where
  result : Except (List String) α
  attemptsMade : Nat
deriving Repr

/-- The attempt budget of avast/retry-go v4 when `retry.Attempts` is not
supplied, as at this call site. -/
def retryGoDefaultAttempts : Nat := 10

/-- The attempt loop of retry-go's `Do`: run the next attempt; stop on
success; on failure record the error, stop if this was the last
budgeted attempt, otherwise wait — returning the collected errors plus
a cancellation error if the outer context fires during the wait — and
continue with the next attempt. -/
def retryLoop {α : Type} (run : Nat → Except String α) (ctxDone : Nat → Bool) :
    Nat → Nat → List String → RetryTrace α
  | 0, n, errorLog => ⟨.error errorLog, n⟩
  | remaining + 1, n, errorLog =>
    match run n with
    | .ok a => ⟨.ok a, n + 1⟩
    | .error e =>
      if remaining = 0 then ⟨.error (errorLog ++ [e]), n + 1⟩
      else if ctxDone n then ⟨.error (errorLog ++ [e] ++ ["context canceled"]), n + 1⟩
      else retryLoop run ctxDone remaining (n + 1) (errorLog ++ [e])

/-- Models the `retry.Do` call of `importConsumptionIntoLocalTSDB`:
an already-done outer context fails immediately with its cancellation
error, otherwise the attempt loop runs with the default budget. -/
def retryDo {α : Type} (run : Nat → Except String α) (ctxDoneAtEntry : Bool)
    (ctxDone : Nat → Bool) : RetryTrace α :=
  if ctxDoneAtEntry then ⟨.error ["context canceled"], 0⟩
  else retryLoop run ctxDone retryGoDefaultAttempts 0 []

/-! Part: Login flow logging (`loginThamesWater` and `getLoginCookies`) -/

/-- The fixed login page URL of the `app` package. -/
def loginURL : String := "https://myaccount.thameswater.co.uk/login"

/-- Models `strings.Repeat("*", len(password))`: Go's `len` counts
UTF-8 bytes. -/
def passwordMask (password : String) : String :=
  String.mk (List.replicate password.utf8ByteSize '*')

/-- The log events of one login attempt, in order: the announcement of
`getLoginCookies`, the step logs of the `loginThamesWater` task list,
and the success log.  Each event is its key/value list.  The password
appears only through `passwordMask`. -/
def loginFlowLogs (email password accountNumber accountAddress : String) :
    List (List (String × String)) :=
  [ [("msg", "attempting login to thames water account"), ("email", email)],
    [("msg", "waiting for cookie consent"), ("url", loginURL)],
    [("msg", "enter email"), ("email", email)],
    [("msg", "enter password"), ("password", passwordMask password)],
    [("msg", "wait for account details to be shown")],
    [("msg", "successfully logged in"), ("accountNumber", accountNumber),
      ("accountAddress", accountAddress)] ]

/-! Part: Concrete scenarios used by the theorems below -/

/-- The literal boundary scenario of the spec: one discovered meter and
the available days 2024-02-28, 2024-03-01 and 2024-03-02. -/
def floorScenarioResp : GetMetersResponse :=
  ⟨["meter-1"], [⟨"0", "28-02-2024"⟩, ⟨"1", "01-03-2024"⟩, ⟨"2", "02-03-2024"⟩]⟩

/-- The store floor 2024-03-01T00:00Z of the literal boundary
scenario. -/
def floorScenarioFloor : Option Int := some (dayStartMs ⟨2024, 3, 1⟩)

/-- A discovery response on an empty store whose one available day is
the degenerate date 0001-01-01 — the date equal to the Go zero time
that the uninitialized `minTime` variable holds. -/
def zeroDayResp : GetMetersResponse := ⟨["meter-1"], [⟨"0", "01-01-0001"⟩]⟩

/-- A detail line whose time label has no colon, so that it fails the
split-count check of the label parser. -/
def badLabelLine : MeterLine := ⟨"1030", 0, 0, false, "serial-1"⟩

/-- A fetch stub that returns the single malformed detail line for
every day. -/
def badLabelFetch : ConsumptionRequest → Except String (List MeterLine) :=
  fun _ => .ok [badLabelLine]

/-! Part: Theorems -/

/-- Helper: with a fetch whose every day succeeds with no detail lines,
the day loop processes exactly the days whose start is strictly after
the floor, skips the rest, commits one (empty) batch per processed day,
and finishes without error. -/
theorem importLoop_okFetch_spec (minTime : Int) (reqs : List ConsumptionRequest) :
    importLoop minTime okFetch reqs =
      ⟨(reqs.filter (fun r => decide (minTime < r.startDate))).map (fun _ => []),
       (reqs.filter (fun r => decide (minTime < r.startDate))).map (fun r => r.startDate),
       (reqs.filter (skipDay minTime)).map (fun r => r.startDate),
       none⟩ := by
  induction reqs with
  | nil => rfl
  | cons req rest ih =>
    by_cases h : minTime < req.startDate
    · simp [importLoop, okFetch, buildDaySamples, h, ih, skipDay, List.filter_cons]
    · simp [importLoop, okFetch, h, ih, skipDay, List.filter_cons]

/-- C1 (counterexample): in the literal scenario — store floor
2024-03-01T00:00Z, available days 2024-02-28, 2024-03-01, 2024-03-02 —
the pipeline does not process the claimed set: the day whose date
equals the floor is skipped rather than fetched, so the processed days
are not 2024-03-01 and 2024-03-02. -/
theorem c1_floor_boundary_counterexample :
    dayStartMs ⟨2024, 3, 1⟩ ∉ (runImport floorScenarioFloor floorScenarioResp okFetch).processed ∧
    (runImport floorScenarioFloor floorScenarioResp okFetch).processed ≠
      [dayStartMs ⟨2024, 3, 1⟩, dayStartMs ⟨2024, 3, 2⟩] := by
  decide

/-- C1 (amended): in the literal scenario the pipeline processes exactly
the set containing 2024-03-02; the days 2024-02-28 and 2024-03-01 (the
day equal to the floor) are skipped as already covered, and the run
completes without error. -/
theorem c1_floor_boundary :
    runImport floorScenarioFloor floorScenarioResp okFetch =
      ⟨[[]], [dayStartMs ⟨2024, 3, 2⟩],
       [dayStartMs ⟨2024, 2, 28⟩, dayStartMs ⟨2024, 3, 1⟩], none⟩ := by
  decide

/-- C2 (counterexample): on a store with no data the floor is not
treated as absent — the `minTime` variable holds the Go zero time
0001-01-01T00:00Z — so the available day 0001-01-01, whose start equals
that zero time, is skipped instead of processed although the store is
empty. -/
theorem c2_empty_store_counterexample :
    (runImport none zeroDayResp okFetch).processed = [] ∧
    (runImport none zeroDayResp okFetch).skipped = [goZeroTimeMs] ∧
    (runImport none zeroDayResp okFetch).error = none := by
  decide

/-- C2 (amended): a day is processed iff the effective floor is
strictly before the day's start, and skipped iff it is not, where the
effective floor is the store's appendable-minimum-time when the store
has data and the Go zero time 0001-01-01T00:00Z otherwise; hence on an
empty store every day dated strictly after 0001-01-01 is processed,
but a day dated 0001-01-01 or earlier is skipped. -/
theorem c2_dedup_rule :
    (∀ (floor : Option Int) (reqs : List ConsumptionRequest),
      importLoop (effectiveMinTime floor) okFetch (sortRequests reqs) =
        ⟨((sortRequests reqs).filter
            (fun r => decide (effectiveMinTime floor < r.startDate))).map (fun _ => []),
         ((sortRequests reqs).filter
            (fun r => decide (effectiveMinTime floor < r.startDate))).map (fun r => r.startDate),
         ((sortRequests reqs).filter (skipDay (effectiveMinTime floor))).map (fun r => r.startDate),
         none⟩) ∧
    (∀ t : Int, effectiveMinTime (some t) = t) ∧
    effectiveMinTime none = dayStartMs ⟨1, 1, 1⟩ := by
  refine ⟨fun floor reqs => importLoop_okFetch_spec _ _, fun t => rfl, rfl⟩

/-- C4: when `client.NewBucket` and `shipper.Sync` both succeed,
`uploadLocalTSDB` returns success without ever closing the bucket
client — the deferred cleanup is guarded by `err != nil` and does not
run on the success exit path — while the Sync-error path does close
it. -/
theorem c4_success_path_skips_close :
    (uploadLocalTSDB (.ok ()) (.ok 3)).2 = none ∧
    ShipperEvent.closedBucket ∉ (uploadLocalTSDB (.ok ()) (.ok 3)).1 ∧
    ShipperEvent.closedBucket ∈ (uploadLocalTSDB (.ok ()) (.error "sync failed")).1 := by
  decide

/-- C10: the out-of-range time label "25:99" is accepted by the label
parser (both parts parse as 32-bit integers), and the timestamp built
by the date arithmetic normalizes the overflow: the sample lands one
day plus 2 h 39 min after the day's midnight, outside the day's date.
A negative hour such as in "-1:30" is likewise accepted and lands
before the day. -/
theorem c10_out_of_range_label_accepted :
    parseTimeLabel "25:99" = .ok (25, 99) ∧
    (∀ dayStart : Int,
      sampleTime dayStart 25 99 = dayStart + 86400000 + 9540000 ∧
      ¬(dayStart ≤ sampleTime dayStart 25 99 ∧
        sampleTime dayStart 25 99 < dayStart + 86400000)) ∧
    parseTimeLabel "-1:30" = .ok (-1, 30) ∧
    (∀ dayStart : Int, sampleTime dayStart (-1) 30 < dayStart) := by
  refine ⟨by rfl, fun dayStart => ⟨by simp [sampleTime]; ring, by simp [sampleTime]; omega⟩,
    by rfl, fun dayStart => by simp [sampleTime]; omega⟩

/-- C10 (witness): at a concrete day start, the normalized timestamp of
the out-of-range label is one day plus 2 h 39 min later. -/
theorem c10_out_of_range_label_accepted_witness :
    sampleTime 0 25 99 = 0 + 86400000 + 9540000 :=
  (c10_out_of_range_label_accepted.2.1 0).1

/-- Helper: the cookie-extraction fold equals filtering by the
retention test and converting each retained cookie, for any
accumulator. -/
theorem filterLoginCookies_foldl (cs : List CdpCookie) (acc : List HttpCookie) :
    cs.foldl (fun acc c => if keepCookie c then acc ++ [convertCookie c] else acc) acc =
      acc ++ (cs.filter keepCookie).map convertCookie := by
  induction cs generalizing acc with
  | nil => simp
  | cons c rest ih =>
    by_cases h : keepCookie c
    · simp [List.foldl_cons, h, ih, List.filter_cons]
    · simp [List.foldl_cons, h, ih, List.filter_cons]

/-- C5: cookie extraction retains exactly the cookies whose domain
carries the target-site suffix ".thameswater.co.uk" and whose name is
in the fixed allow-list; in particular a cookie named "foo" on the
target domain is dropped while "JSESSIONID" on a subdomain of the
target site is kept. -/
theorem c5_cookie_filter :
    (∀ cs : List CdpCookie,
      filterLoginCookies cs = (cs.filter keepCookie).map convertCookie) ∧
    (∀ c : CdpCookie, keepCookie c = true ↔
      (".thameswater.co.uk".toList.isSuffixOf c.domain.toList = true ∧
        c.name ∈ allowedCookieNames)) ∧
    keepCookie ⟨"foo", "v", "/", "myaccount.thameswater.co.uk", 0, true, .lax⟩ = false ∧
    keepCookie ⟨"JSESSIONID", "v", "/", "myaccount.thameswater.co.uk", 0, true, .lax⟩ = true ∧
    filterLoginCookies
        [⟨"foo", "v", "/", "myaccount.thameswater.co.uk", 0, true, .lax⟩,
         ⟨"JSESSIONID", "v", "/", "myaccount.thameswater.co.uk", 0, true, .lax⟩] =
      [convertCookie ⟨"JSESSIONID", "v", "/", "myaccount.thameswater.co.uk", 0, true, .lax⟩] := by
  refine ⟨fun cs => filterLoginCookies_foldl cs [], fun c => ?_, by decide, by decide, by decide⟩
  simp [keepCookie, allowedCookieNames, Bool.and_eq_true, Bool.or_eq_true, beq_iff_eq]
  tauto

/-- Helper: every request built by the request-construction loop
carries the meter it was given. -/
theorem buildRequests_meter (meter : String) :
    ∀ (daily : List Reading) (reqs : List ConsumptionRequest),
      buildRequests meter daily = .ok reqs → ∀ r ∈ reqs, r.meter = meter := by
  intro daily
  induction daily with
  | nil =>
    intro reqs h r hr
    simp [buildRequests] at h
    subst h
    simp at hr
  | cons rd rest ih =>
    intro reqs h r hr
    simp only [buildRequests] at h
    cases hp : parseDayMarker rd.value with
    | none => rw [hp] at h; exact absurd h (by simp)
    | some dt =>
      rw [hp] at h
      cases hb : buildRequests meter rest with
      | error e => rw [hb] at h; exact absurd h (by simp)
      | ok reqs' =>
        rw [hb] at h
        simp only [Except.ok.injEq] at h
        subst h
        rcases List.mem_cons.mp hr with h' | h'
        · subst h'; rfl
        · exact ih reqs' hb r h'

/-- C8: an empty meter list fails the run with "no meters found" before
any day is fetched or committed; otherwise every consumption request of
the run carries the first discovered meter. -/
theorem c8_first_meter :
    (∀ (floor : Option Int) (daily : List Reading)
        (fetch : ConsumptionRequest → Except String (List MeterLine)),
      runImport floor ⟨[], daily⟩ fetch = ⟨[], [], [], some "no meters found"⟩) ∧
    (∀ (meter : String) (daily : List Reading) (reqs : List ConsumptionRequest),
      buildRequests meter daily = .ok reqs → ∀ r ∈ reqs, r.meter = meter) ∧
    (∀ (floor : Option Int) (meter : String) (meters : List String) (daily : List Reading)
        (fetch : ConsumptionRequest → Except String (List MeterLine)),
      runImport floor ⟨meter :: meters, daily⟩ fetch =
        match buildRequests meter daily with
        | .error e => ⟨[], [], [], some e⟩
        | .ok reqs => importLoop (effectiveMinTime floor) fetch (sortRequests reqs)) := by
  exact ⟨fun _ _ _ => rfl, fun meter => buildRequests_meter meter, fun _ _ _ _ _ => rfl⟩

/-- C8 (witness): the empty-meter response fails the run before any
fetch, and the one request built from the first meter of a concrete
response carries that meter. -/
theorem c8_first_meter_witness :
    runImport (some 0) ⟨[], [⟨"0", "01-03-2024"⟩]⟩ okFetch =
      ⟨[], [], [], some "no meters found"⟩ ∧
    (requestOfDate "meter-1" ⟨2024, 3, 1⟩).meter = "meter-1" :=
  ⟨c8_first_meter.1 (some 0) [⟨"0", "01-03-2024"⟩] okFetch,
   c8_first_meter.2.1 "meter-1" [⟨"0", "01-03-2024"⟩] [requestOfDate "meter-1" ⟨2024, 3, 1⟩]
     (by rfl) _ (by simp)⟩

/-- C9: the login flow renders the password only as an asterisk mask of
the password's byte length — every "password"-keyed log value is the
mask — and the whole log output of the flow depends on the password
only through its length: two runs with equal-length passwords produce
identical log output. -/
theorem c9_password_never_logged (email p₁ p₂ acctNum acctAddr : String)
    (hlen : p₁.utf8ByteSize = p₂.utf8ByteSize) :
    loginFlowLogs email p₁ acctNum acctAddr = loginFlowLogs email p₂ acctNum acctAddr ∧
    (∀ ev ∈ loginFlowLogs email p₁ acctNum acctAddr, ∀ kv ∈ ev,
      kv.1 = "password" → kv.2 = passwordMask p₁) := by
  constructor
  · simp [loginFlowLogs, passwordMask, hlen]
  · intro ev hev kv hkv hkey
    simp only [loginFlowLogs] at hev
    fin_cases hev <;> fin_cases hkv <;> simp_all

/-- C9 (witness): two concrete equal-length passwords produce identical
log output for the login flow. -/
theorem c9_password_never_logged_witness :
    loginFlowLogs "user" "hunter2" "12345" "addr" =
      loginFlowLogs "user" "streng1" "12345" "addr" :=
  (c9_password_never_logged "user" "hunter2" "streng1" "12345" "addr" (by decide)).1

/-- Helper: a label that does not split into exactly two colon-separated
parts makes the label parser fail. -/
theorem parseTimeLabel_error_of_bad_split (label : String)
    (h : (goSplit ':' label.toList).length ≠ 2) :
    ∃ e, parseTimeLabel label = .error e := by
  unfold parseTimeLabel
  match hs : goSplit ':' label.toList with
  | [] => exact ⟨_, rfl⟩
  | [_] => exact ⟨_, rfl⟩
  | [_, _] => rw [hs] at h; simp at h
  | _ :: _ :: _ :: _ => exact ⟨_, rfl⟩

/-- Helper: if any line of a day fails to parse, building the day's
samples fails. -/
theorem buildDaySamples_error_of_bad_line (dayStart : Int) :
    ∀ (lines : List MeterLine) (l : MeterLine), l ∈ lines →
      (∃ e, parseTimeLabel l.label = .error e) →
      ∃ e, buildDaySamples dayStart lines = .error e := by
  intro lines
  induction lines with
  | nil => intro l hl; simp at hl
  | cons hd rest ih =>
    intro l hl ⟨e, he⟩
    rcases List.mem_cons.mp hl with rfl | hmem
    · exact ⟨e, by simp [buildDaySamples, he]⟩
    · cases hp : parseTimeLabel hd.label with
      | error e' => exact ⟨e', by simp [buildDaySamples, hp]⟩
      | ok hm =>
        obtain ⟨e', he'⟩ := ih l hmem ⟨e, he⟩
        exact ⟨e', by simp [buildDaySamples, hp, he']⟩

/-- Helper: if any day-marker string fails to parse, building the
request list fails. -/
theorem buildRequests_error_of_bad_marker (meter : String) :
    ∀ (daily : List Reading) (rd : Reading), rd ∈ daily →
      parseDayMarker rd.value = none →
      ∃ e, buildRequests meter daily = .error e := by
  intro daily
  induction daily with
  | nil => intro rd hrd; simp at hrd
  | cons hd rest ih =>
    intro rd hrd hbad
    rcases List.mem_cons.mp hrd with rfl | hmem
    · exact ⟨"parsing time " ++ rd.value, by simp [buildRequests, hbad]⟩
    · cases hp : parseDayMarker hd.value with
      | none => exact ⟨"parsing time " ++ hd.value, by simp [buildRequests, hp]⟩
      | some dt =>
        obtain ⟨e, he⟩ := ih rd hmem hbad
        exact ⟨e, by simp [buildRequests, hp, he]⟩

/-- C6: a detail line whose time label does not split into two parts
(or whose parts fail to parse) fails the day's sample construction; a
day whose sample construction fails aborts the run with that error
before the day's batch is committed; days that completed before the
failing day keep their committed batches and the run's error is the
later failure; and an unparseable day-marker date aborts the run before
any day is committed. -/
theorem c6_parse_failure_aborts :
    (∀ (dayStart : Int) (lines : List MeterLine) (l : MeterLine), l ∈ lines →
      (goSplit ':' l.label.toList).length ≠ 2 →
      ∃ e, buildDaySamples dayStart lines = .error e) ∧
    (∀ (minTime : Int) (fetch : ConsumptionRequest → Except String (List MeterLine))
        (req : ConsumptionRequest) (rest : List ConsumptionRequest)
        (lines : List MeterLine) (e : String),
      minTime < req.startDate → fetch req = .ok lines →
      buildDaySamples req.startDate lines = .error e →
      importLoop minTime fetch (req :: rest) = ⟨[], [req.startDate], [], some e⟩) ∧
    (∀ (minTime : Int) (fetch : ConsumptionRequest → Except String (List MeterLine))
        (good rest : List ConsumptionRequest),
      (importLoop minTime fetch good).error = none →
      importLoop minTime fetch (good ++ rest) =
        ⟨(importLoop minTime fetch good).committed ++ (importLoop minTime fetch rest).committed,
         (importLoop minTime fetch good).processed ++ (importLoop minTime fetch rest).processed,
         (importLoop minTime fetch good).skipped ++ (importLoop minTime fetch rest).skipped,
         (importLoop minTime fetch rest).error⟩) ∧
    (∀ (floor : Option Int) (resp : GetMetersResponse)
        (fetch : ConsumptionRequest → Except String (List MeterLine)) (rd : Reading),
      rd ∈ resp.daily → parseDayMarker rd.value = none →
      (runImport floor resp fetch).committed = [] ∧
      (runImport floor resp fetch).error ≠ none) := by
  refine ⟨?_, ?_, ?_, ?_⟩
  · intro dayStart lines l hl hsplit
    exact buildDaySamples_error_of_bad_line dayStart lines l hl
      (parseTimeLabel_error_of_bad_split l.label hsplit)
  · intro minTime fetch req rest lines e hmin hfetch hbuild
    simp [importLoop, hmin, hfetch, hbuild]
  · intro minTime fetch good rest
    induction good with
    | nil => intro _; simp [importLoop]
    | cons req grest ih =>
      intro hok
      rw [List.cons_append]
      by_cases hmin : minTime < req.startDate
      · cases hfetch : fetch req with
        | error e =>
          exfalso
          simp [importLoop, hmin, hfetch] at hok
        | ok lines =>
          cases hbuild : buildDaySamples req.startDate lines with
          | error e =>
            exfalso
            simp [importLoop, hmin, hfetch, hbuild] at hok
          | ok samples =>
            have hok' : (importLoop minTime fetch grest).error = none := by
              simpa [importLoop, hmin, hfetch, hbuild] using hok
            simp [importLoop, hmin, hfetch, hbuild, ih hok']
      · have hok' : (importLoop minTime fetch grest).error = none := by
          simpa [importLoop, hmin] using hok
        simp [importLoop, hmin, ih hok']
  · intro floor resp fetch rd hrd hbad
    match hm : resp.meters with
    | [] =>
      constructor
      · show (runImport floor resp fetch).committed = []
        unfold runImport
        rw [hm]
      · show (runImport floor resp fetch).error ≠ none
        unfold runImport
        rw [hm]
        simp
    | meter :: rest =>
      obtain ⟨e, he⟩ := buildRequests_error_of_bad_marker meter resp.daily rd hrd hbad
      constructor
      · show (runImport floor resp fetch).committed = []
        unfold runImport
        rw [hm]
        simp [he]
      · show (runImport floor resp fetch).error ≠ none
        unfold runImport
        rw [hm]
        simp [he]

/-- C6 (witness): a concrete colon-free label fails the day build, a
concrete run aborts the failing day with nothing committed for it, a
committed prior day survives a later failure, and a bad day-marker
aborts the concrete run with nothing committed. -/
theorem c6_parse_failure_aborts_witness :
    (∃ e, buildDaySamples 0 [badLabelLine] = .error e) ∧
    importLoop 0 badLabelFetch [⟨"meter-1", 1, 1⟩] =
      ⟨[], [1], [], some "unexpected label split count: 1"⟩ ∧
    importLoop 0 badLabelFetch ([] ++ [⟨"meter-1", 1, 1⟩]) =
      ⟨(importLoop 0 badLabelFetch []).committed ++
         (importLoop 0 badLabelFetch [⟨"meter-1", 1, 1⟩]).committed,
       (importLoop 0 badLabelFetch []).processed ++
         (importLoop 0 badLabelFetch [⟨"meter-1", 1, 1⟩]).processed,
       (importLoop 0 badLabelFetch []).skipped ++
         (importLoop 0 badLabelFetch [⟨"meter-1", 1, 1⟩]).skipped,
       (importLoop 0 badLabelFetch [⟨"meter-1", 1, 1⟩]).error⟩ ∧
    (runImport none ⟨["meter-1"], [⟨"0", "2024-03-01"⟩]⟩ okFetch).committed = [] ∧
    (runImport none ⟨["meter-1"], [⟨"0", "2024-03-01"⟩]⟩ okFetch).error ≠ none :=
  ⟨c6_parse_failure_aborts.1 0 [badLabelLine] badLabelLine (by simp) (by decide),
   c6_parse_failure_aborts.2.1 0 badLabelFetch ⟨"meter-1", 1, 1⟩ [] [badLabelLine]
     "unexpected label split count: 1" (by decide) rfl (by rfl),
   c6_parse_failure_aborts.2.2.1 0 badLabelFetch [] [⟨"meter-1", 1, 1⟩] rfl,
   (c6_parse_failure_aborts.2.2.2 none ⟨["meter-1"], [⟨"0", "2024-03-01"⟩]⟩ okFetch
     ⟨"0", "2024-03-01"⟩ (by simp) (by rfl)).1,
   (c6_parse_failure_aborts.2.2.2 none ⟨["meter-1"], [⟨"0", "2024-03-01"⟩]⟩ okFetch
     ⟨"0", "2024-03-01"⟩ (by simp) (by rfl)).2⟩

/-- Helper: a pairwise relation can be strengthened using facts about
the members of the list. -/
theorem pairwise_imp_of_mem {α : Type} {r s : α → α → Prop} :
    ∀ {l : List α}, (∀ a b, a ∈ l → b ∈ l → r a b → s a b) → l.Pairwise r → l.Pairwise s := by
  intro l
  induction l with
  | nil => intro _ _; exact List.Pairwise.nil
  | cons x xs ih =>
    intro h hp
    rcases List.pairwise_cons.mp hp with ⟨hx, hxs⟩
    exact List.pairwise_cons.mpr
      ⟨fun b hb => h x b (by simp) (by simp [hb]) (hx b hb),
       ih (fun a b ha hb => h a b (by simp [ha]) (by simp [hb])) hxs⟩

/-- Helper: requests built for one fixed meter are fully determined by
their start date, so sorting the request lists of two permutations of
the same day multiset yields the same list. -/
theorem sortRequests_perm_eq (m : String) (l₁ l₂ : List Date) (hperm : l₁.Perm l₂) :
    sortRequests (l₁.map (requestOfDate m)) = sortRequests (l₂.map (requestOfDate m)) := by
  classical
  have hmp : (l₁.map (requestOfDate m)).Perm (l₂.map (requestOfDate m)) := hperm.map _
  have hsp : (sortRequests (l₁.map (requestOfDate m))).Perm
      (sortRequests (l₂.map (requestOfDate m))) :=
    (List.perm_insertionSort _ _).trans (hmp.trans (List.perm_insertionSort _ _).symm)
  haveI : IsAntisymm ConsumptionRequest
      (fun a b => a.startDate < b.startDate ∨ a = b) := ⟨by
    rintro a b (h | h) (h' | h')
    · exact absurd h' (lt_asymm h)
    · exact h'.symm
    · exact h
    · exact h⟩
  haveI htot : IsTotal ConsumptionRequest (fun a b => a.startDate ≤ b.startDate) :=
    ⟨fun a b => le_total _ _⟩
  haveI htrans : IsTrans ConsumptionRequest (fun a b => a.startDate ≤ b.startDate) :=
    ⟨fun a b c hab hbc => le_trans hab hbc⟩
  have hmem : ∀ (l : List Date) (x : ConsumptionRequest),
      x ∈ sortRequests (l.map (requestOfDate m)) → ∃ d, x = requestOfDate m d := by
    intro l x hx
    have hx' : x ∈ l.map (requestOfDate m) :=
      (List.perm_insertionSort _ _).mem_iff.mp hx
    obtain ⟨d, _, rfl⟩ := List.mem_map.mp hx'
    exact ⟨d, rfl⟩
  have hup : ∀ (l : List Date),
      (sortRequests (l.map (requestOfDate m))).Pairwise
        (fun a b => a.startDate < b.startDate ∨ a = b) := by
    intro l
    have hsorted : (sortRequests (l.map (requestOfDate m))).Pairwise
        (fun a b => a.startDate ≤ b.startDate) :=
      List.sorted_insertionSort
        (fun a b : ConsumptionRequest => a.startDate ≤ b.startDate) (l.map (requestOfDate m))
    refine pairwise_imp_of_mem (fun a b ha hb hle => ?_) hsorted
    obtain ⟨da, rfl⟩ := hmem l a ha
    obtain ⟨db, rfl⟩ := hmem l b hb
    rcases lt_or_eq_of_le hle with h | h
    · exact Or.inl h
    · right
      simp only [requestOfDate] at h ⊢
      simp [h]
  exact List.eq_of_perm_of_sorted hsp (hup l₁) (hup l₂)

/-- C7: for two permutations of the same multiset of day markers and a
fixed store floor, sorting ascending yields the same request sequence,
hence the same skip set and the same processed sequence — the dedup
outcome is independent of the order in which days were discovered. -/
theorem c7_dedup_order_independent (m : String) (floor : Int) (ds₁ ds₂ : List Date)
    (hperm : ds₁.Perm ds₂) :
    sortRequests (ds₁.map (requestOfDate m)) = sortRequests (ds₂.map (requestOfDate m)) ∧
    (sortRequests (ds₁.map (requestOfDate m))).filter (skipDay floor) =
      (sortRequests (ds₂.map (requestOfDate m))).filter (skipDay floor) ∧
    (sortRequests (ds₁.map (requestOfDate m))).filter (fun r => decide (floor < r.startDate)) =
      (sortRequests (ds₂.map (requestOfDate m))).filter (fun r => decide (floor < r.startDate)) := by
  have h := sortRequests_perm_eq m ds₁ ds₂ hperm
  exact ⟨h, by rw [h], by rw [h]⟩

/-- C7 (witness): the two orders of a concrete two-day multiset sort to
the same request sequence and give the same skip set. -/
theorem c7_dedup_order_independent_witness :
    sortRequests ([⟨2024, 3, 2⟩, ⟨2024, 3, 1⟩].map (requestOfDate "meter-1")) =
      sortRequests ([⟨2024, 3, 1⟩, ⟨2024, 3, 2⟩].map (requestOfDate "meter-1")) ∧
    (sortRequests ([⟨2024, 3, 2⟩, ⟨2024, 3, 1⟩].map (requestOfDate "meter-1"))).filter
        (skipDay (dayStartMs ⟨2024, 3, 1⟩)) =
      (sortRequests ([⟨2024, 3, 1⟩, ⟨2024, 3, 2⟩].map (requestOfDate "meter-1"))).filter
        (skipDay (dayStartMs ⟨2024, 3, 1⟩)) :=
  ⟨(c7_dedup_order_independent "meter-1" (dayStartMs ⟨2024, 3, 1⟩)
      [⟨2024, 3, 2⟩, ⟨2024, 3, 1⟩] [⟨2024, 3, 1⟩, ⟨2024, 3, 2⟩] (by decide)).1,
   (c7_dedup_order_independent "meter-1" (dayStartMs ⟨2024, 3, 1⟩)
      [⟨2024, 3, 2⟩, ⟨2024, 3, 1⟩] [⟨2024, 3, 1⟩, ⟨2024, 3, 2⟩] (by decide)).2.1⟩

/-- Helper: the retry loop makes at most `remaining` further attempts
beyond the `n` already made. -/
theorem retryLoop_attempts_le {α : Type} (run : Nat → Except String α) (cd : Nat → Bool) :
    ∀ (remaining n : Nat) (log : List String),
      (retryLoop run cd remaining n log).attemptsMade ≤ n + remaining := by
  intro remaining
  induction remaining with
  | zero => intro n log; simp [retryLoop]
  | succ rem ih =>
    intro n log
    cases hrun : run n with
    | ok a => simp [retryLoop, hrun]
    | error e =>
      by_cases h : rem = 0
      · simp [retryLoop, hrun, h]
      · by_cases hcd : cd n = true
        · simp [retryLoop, hrun, h, hcd]
        · simp only [retryLoop, hrun]
          rw [if_neg h, if_neg hcd]
          have := ih (n + 1) (log ++ [e])
          omega

/-- Helper: when every attempt fails and the outer context never
fires, the retry loop runs through its whole remaining budget and
returns the errors of those attempts in order. -/
theorem retryLoop_all_fail {α : Type} (errOf : Nat → String) :
    ∀ (remaining n : Nat) (log : List String),
      retryLoop (fun k => (Except.error (errOf k) : Except String α)) (fun _ => false)
          remaining n log =
        ⟨.error (log ++ (List.range' n remaining).map errOf), n + remaining⟩ := by
  intro remaining
  induction remaining with
  | zero => intro n log; simp [retryLoop, List.range']
  | succ rem ih =>
    intro n log
    by_cases h : rem = 0
    · simp [retryLoop, h, List.range']
    · simp only [retryLoop]
      rw [if_neg h, if_neg (by simp : ¬((fun _ : Nat => false) n = true))]
      rw [ih (n + 1) (log ++ [errOf n])]
      congr 1
      · simp [List.range']
      · omega

/-- C3 (counterexample): with the outer context never cancelled and
every login attempt failing, the bootstrap loop still terminates with
an error after exactly 10 attempts — the library default attempt count
— and returns the aggregate of all 10 attempt errors, not only the most
recent one; the claimed unbounded retrying does not happen. -/
theorem c3_bounded_retries_counterexample :
    (retryDo (α := List HttpCookie) (fun _ => .error "login failed") false
        (fun _ => false)).attemptsMade = 10 ∧
    (retryDo (α := List HttpCookie) (fun _ => .error "login failed") false
        (fun _ => false)).result = .error (List.replicate 10 "login failed") := by
  constructor <;> rfl

/-- C3 (amended): the session-bootstrap loop retries up to the retry
library's default budget of 10 attempts; it returns the first
successful cookie set; an outer context already done fails immediately
with a cancellation error; an outer context firing during the wait
after a failed attempt stops further attempts and returns the
accumulated errors plus a cancellation error; and when every attempt
fails without cancellation the loop stops after 10 attempts with the
aggregate of all 10 errors. -/
theorem c3_retry_bounded {α : Type} (run : Nat → Except String α) (cd : Nat → Bool)
    (errOf : Nat → String) (a : α) :
    (retryDo run false cd).attemptsMade ≤ retryGoDefaultAttempts ∧
    (run 0 = .ok a → retryDo run false cd = ⟨.ok a, 1⟩) ∧
    (run 0 = .error (errOf 0) → cd 0 = true →
      retryDo run false cd = ⟨.error [errOf 0, "context canceled"], 1⟩) ∧
    ((∀ n, run n = .error (errOf n)) →
      retryDo run false (fun _ => false) = ⟨.error ((List.range 10).map errOf), 10⟩) ∧
    retryDo run true cd = ⟨.error ["context canceled"], 0⟩ := by
  refine ⟨?_, ?_, ?_, ?_, rfl⟩
  · simpa [retryDo, retryGoDefaultAttempts] using retryLoop_attempts_le run cd 10 0 []
  · intro h
    simp [retryDo, retryGoDefaultAttempts, retryLoop, h]
  · intro h hcd
    simp [retryDo, retryGoDefaultAttempts, retryLoop, h, hcd]
  · intro h
    have hr : run = fun k => (Except.error (errOf k) : Except String α) := funext h
    rw [hr]
    simp [retryDo, retryGoDefaultAttempts, retryLoop_all_fail errOf 10 0 [],
      List.range_eq_range']

/-- C3 (witness): concrete instances — immediate success after one
attempt, exhaustion after exactly 10 failing attempts, cancellation
during the first wait, and an already-cancelled context. -/
theorem c3_retry_bounded_witness :
    (retryDo (α := Nat) (fun _ => .ok 7) false (fun _ => false)).attemptsMade ≤
      retryGoDefaultAttempts ∧
    retryDo (α := Nat) (fun _ => .ok 7) false (fun _ => false) = ⟨.ok 7, 1⟩ ∧
    retryDo (α := Nat) (fun _ => .error "boom") false (fun _ => true) =
      ⟨.error ["boom", "context canceled"], 1⟩ ∧
    retryDo (α := Nat) (fun _ => .error "boom") false (fun _ => false) =
      ⟨.error ((List.range 10).map (fun _ => "boom")), 10⟩ ∧
    retryDo (α := Nat) (fun _ => .error "boom") true (fun _ => false) =
      ⟨.error ["context canceled"], 0⟩ :=
  ⟨(c3_retry_bounded (fun _ => .ok 7) (fun _ => false) (fun _ => "boom") 7).1,
   (c3_retry_bounded (fun _ => .ok 7) (fun _ => false) (fun _ => "boom") 7).2.1 rfl,
   (c3_retry_bounded (fun _ => .error "boom") (fun _ => true) (fun _ => "boom") 0).2.2.1 rfl rfl,
   (c3_retry_bounded (fun _ => .error "boom") (fun _ => false) (fun _ => "boom") 0).2.2.2.1
     (fun _ => rfl),
   (c3_retry_bounded (fun _ => .error "boom") (fun _ => false) (fun _ => "boom") 0).2.2.2.2⟩

end ThamesWater
